import Mathlib

/-!
Verification of the fall.vim picker engine against its specification.

The definitions below are shallow embeddings of the TypeScript sources:
  - `src/denops/fall/lib/unique_ordered_list.ts`
  - `src/denops/fall/processor/collect.ts`
  - `src/denops/fall/processor/match.ts` (the variant with `#previousQuery`)
  - `src/denops/fall/processor/sort.ts`
  - the render processor (`RenderProcessor`)
  - `src/denops/fall/session.ts` and `src/denops/fall/main/picker.ts`
  - the picker orchestrator (`Picker`)

Asynchronous runs are modelled as explicit state-transition functions; the
abort signal of a processor is modelled by the point (counted in flushed
chunks) at which it fires.  JavaScript numbers are modelled as `Int` where
negative values can occur and as `Nat` elsewhere.
-/

namespace Fall

/-- An item as produced by a `Source`: only the `value` field matters for the
collect pipeline (the `detail`/`label` payloads are opaque to it). -/
structure SourceItem where
  value : String
deriving DecidableEq, Repr

/-- An item after the collect processor assigned an `id`
(`IdItem` of `@vim-fall/core`). -/
structure IdItem where
  id : Nat
  value : String
deriving DecidableEq, Repr

/-! ### `lib/unique_ordered_list.ts`

`UniqueOrderedList` keeps a `#seen` set of identifiers next to the ordered
`#items`.  The collect processor instantiates it with
`identifier: (item) => item.value`, so the embedding fixes the identifier to
the `value` field. -/

structure UniqueOrderedList where
  seen : List String
  items : List IdItem
deriving Repr

def UniqueOrderedList.empty : UniqueOrderedList := ⟨[], []⟩

/-- One step of `#uniq` feeding `push`: the item is appended exactly when its
identifier has not been seen; otherwise it is silently skipped. -/
def UniqueOrderedList.push1 (l : UniqueOrderedList) (x : IdItem) : UniqueOrderedList :=
  if x.value ∈ l.seen then l else ⟨x.value :: l.seen, l.items ++ [x]⟩

/-- `push(...items)`: appends each argument whose identifier is fresh. -/
def UniqueOrderedList.push (l : UniqueOrderedList) (xs : List IdItem) : UniqueOrderedList :=
  xs.foldl UniqueOrderedList.push1 l

/-! ### `processor/collect.ts` -/

/-- The id assignment performed by `update` in `CollectProcessor.start`:
`map(chunk, (item, i) => ({ ...item, id: i + offset }))`.  The index `i` is the
position inside the flushed chunk, counted before deduplication. -/
def assignIds (offset : Nat) : List SourceItem → List IdItem
  | [] => []
  | x :: xs => ⟨offset, x.value⟩ :: assignIds (offset + 1) xs

/-- `update(chunk)` of `CollectProcessor.start`: read `offset = #items.size`,
assign ids, and push into the unique ordered buffer. -/
def collectUpdate (buf : UniqueOrderedList) (chunk : List SourceItem) : UniqueOrderedList :=
  buf.push (assignIds buf.items.length chunk)

/-- A whole collect run, seen as the sequence of flushed chunks (the chunk
boundaries are produced by `chunkSize` / `chunkInterval`; a short fast source
is flushed as a single final chunk). -/
def collectRun (chunks : List (List SourceItem)) : UniqueOrderedList :=
  chunks.foldl collectUpdate UniqueOrderedList.empty

/-! ### Invariants of the unique ordered buffer -/

/-- `#seen` holds exactly the identifiers of the stored items, and the stored
identifiers are pairwise distinct. -/
def uolInv (l : UniqueOrderedList) : Prop :=
  (∀ v, v ∈ l.seen ↔ v ∈ l.items.map IdItem.value) ∧ (l.items.map IdItem.value).Nodup

theorem uolInv_empty : uolInv UniqueOrderedList.empty := by
  constructor
  · intro v; simp [UniqueOrderedList.empty]
  · simp [UniqueOrderedList.empty]

theorem uolInv_push1 (l : UniqueOrderedList) (x : IdItem) (h : uolInv l) :
    uolInv (l.push1 x) := by
  obtain ⟨hseen, hnd⟩ := h
  unfold UniqueOrderedList.push1
  by_cases hx : x.value ∈ l.seen
  · simp [hx, hseen, hnd]
    constructor
    · exact hseen
    · exact hnd
  · simp only [hx, if_false]
    constructor
    · intro v
      simp only [List.mem_cons, List.map_append, List.mem_append, List.map_cons,
        List.map_nil, List.mem_singleton]
      rw [hseen v]
      tauto
    · simp only [List.map_append, List.map_cons, List.map_nil]
      rw [List.nodup_append]
      refine ⟨hnd, List.nodup_singleton _, ?_⟩
      intro a ha hb
      simp only [List.mem_singleton] at hb
      subst hb
      exact hx ((hseen _).2 ha)

theorem uolInv_push (l : UniqueOrderedList) (xs : List IdItem) (h : uolInv l) :
    uolInv (l.push xs) := by
  induction xs generalizing l with
  | nil => exact h
  | cons x xs ih =>
      exact ih (l.push1 x) (uolInv_push1 l x h)

theorem uolInv_collectUpdate (buf : UniqueOrderedList) (chunk : List SourceItem)
    (h : uolInv buf) : uolInv (collectUpdate buf chunk) :=
  uolInv_push _ _ h

theorem uolInv_collectRun (chunks : List (List SourceItem)) : uolInv (collectRun chunks) := by
  unfold collectRun
  generalize hb : UniqueOrderedList.empty = b
  have hbinv : uolInv b := hb ▸ uolInv_empty
  clear hb
  induction chunks generalizing b with
  | nil => exact hbinv
  | cons c cs ih => exact ih _ (uolInv_collectUpdate b c hbinv)

/-- Pushing a list of items whose identifiers are all fresh and pairwise
distinct appends every single one of them. -/
theorem push_fresh (xs : List IdItem) : ∀ (l : UniqueOrderedList),
    (∀ x ∈ xs, x.value ∉ l.seen) → (xs.map IdItem.value).Nodup →
    (l.push xs).items = l.items ++ xs ∧
      (∀ v, v ∈ (l.push xs).seen ↔ v ∈ l.seen ∨ v ∈ xs.map IdItem.value) := by
  induction xs with
  | nil =>
      intro l _ _
      constructor
      · simp [UniqueOrderedList.push]
      · intro v; simp [UniqueOrderedList.push]
  | cons x xs ih =>
      intro l hfresh hnd
      have hx : x.value ∉ l.seen := hfresh x (List.mem_cons_self x xs)
      have hstep : l.push (x :: xs) = (l.push1 x).push xs := by
        simp [UniqueOrderedList.push, List.foldl_cons]
      have hpush1 : l.push1 x = ⟨x.value :: l.seen, l.items ++ [x]⟩ := by
        simp [UniqueOrderedList.push1, hx]
      simp only [List.map_cons, List.nodup_cons] at hnd
      have hfresh' : ∀ y ∈ xs, y.value ∉ (l.push1 x).seen := by
        intro y hy
        rw [hpush1]
        simp only [List.mem_cons]
        rintro (h | h)
        · exact hnd.1 (h ▸ List.mem_map_of_mem IdItem.value hy)
        · exact hfresh y (List.mem_cons_of_mem x hy) h
      obtain ⟨hit, hse⟩ := ih (l.push1 x) hfresh' hnd.2
      rw [hstep]
      constructor
      · rw [hit, hpush1]
        simp
      · intro v
        rw [hse v, hpush1]
        simp only [List.mem_cons, List.map_cons]
        tauto

theorem assignIds_map_value (chunk : List SourceItem) :
    ∀ o, (assignIds o chunk).map IdItem.value = chunk.map SourceItem.value := by
  induction chunk with
  | nil => intro o; simp [assignIds]
  | cons c cs ih => intro o; simp [assignIds, ih]

theorem assignIds_map_id (chunk : List SourceItem) :
    ∀ o, (assignIds o chunk).map IdItem.id = List.range' o chunk.length := by
  induction chunk with
  | nil => intro o; simp [assignIds]
  | cons c cs ih => intro o; simp [assignIds, List.range'_succ, ih]

theorem assignIds_length (chunk : List SourceItem) :
    ∀ o, (assignIds o chunk).length = chunk.length := by
  induction chunk with
  | nil => intro o; simp [assignIds]
  | cons c cs ih => intro o; simp [assignIds, ih]

/-- Effect of one `update` flush on the buffer when the chunk's values have
not been seen before and are pairwise distinct: every item is appended and the
assigned ids continue the sequence `0, 1, 2, …`. -/
theorem collectUpdate_clean (buf : UniqueOrderedList) (chunk : List SourceItem)
    (hseen : ∀ v, v ∈ buf.seen ↔ v ∈ buf.items.map IdItem.value)
    (hfresh : ∀ v ∈ chunk.map SourceItem.value, v ∉ buf.items.map IdItem.value)
    (hnd : (chunk.map SourceItem.value).Nodup) :
    (collectUpdate buf chunk).items = buf.items ++ assignIds buf.items.length chunk ∧
      (∀ v, v ∈ (collectUpdate buf chunk).seen ↔
        v ∈ buf.seen ∨ v ∈ chunk.map SourceItem.value) := by
  have hvals := assignIds_map_value chunk buf.items.length
  have hfresh' : ∀ x ∈ assignIds buf.items.length chunk, x.value ∉ buf.seen := by
    intro x hx h
    have hmem : x.value ∈ (assignIds buf.items.length chunk).map IdItem.value :=
      List.mem_map_of_mem IdItem.value hx
    rw [hvals] at hmem
    exact hfresh x.value hmem ((hseen x.value).1 h)
  have hnd' : ((assignIds buf.items.length chunk).map IdItem.value).Nodup := by
    rw [hvals]; exact hnd
  obtain ⟨hit, hse⟩ := push_fresh (assignIds buf.items.length chunk) buf hfresh' hnd'
  unfold collectUpdate
  refine ⟨hit, fun v => ?_⟩
  rw [hse v, hvals]

/-- Main induction for the duplicate-free case: over a stream with pairwise
distinct values, the collected values are the stream's values and the ids
count `0, 1, 2, …`. -/
theorem collect_fold_clean (chunks : List (List SourceItem)) :
    ∀ (buf : UniqueOrderedList),
    (∀ v, v ∈ buf.seen ↔ v ∈ buf.items.map IdItem.value) →
    buf.items.map IdItem.id = List.range buf.items.length →
    (buf.items.map IdItem.value ++ (chunks.flatten.map SourceItem.value)).Nodup →
    (chunks.foldl collectUpdate buf).items.map IdItem.value
        = buf.items.map IdItem.value ++ chunks.flatten.map SourceItem.value ∧
      (chunks.foldl collectUpdate buf).items.map IdItem.id
        = List.range (chunks.foldl collectUpdate buf).items.length := by
  induction chunks with
  | nil =>
      intro buf _ hid _
      constructor
      · simp
      · simpa using hid
  | cons c cs ih =>
      intro buf hseen hid hnd
      rw [List.flatten_cons, List.map_append, ← List.append_assoc] at hnd
      rw [List.nodup_append] at hnd
      obtain ⟨hndAB, hndC, hdisjABC⟩ := hnd
      rw [List.nodup_append] at hndAB
      obtain ⟨hndA, hndB, hdisjAB⟩ := hndAB
      have hfresh : ∀ v ∈ c.map SourceItem.value, v ∉ buf.items.map IdItem.value :=
        fun v hv hv' => hdisjAB hv' hv
      obtain ⟨hit, hse⟩ := collectUpdate_clean buf c hseen hfresh hndB
      have hval' : (collectUpdate buf c).items.map IdItem.value
          = buf.items.map IdItem.value ++ c.map SourceItem.value := by
        rw [hit, List.map_append, assignIds_map_value]
      have hid' : (collectUpdate buf c).items.map IdItem.id
          = List.range (collectUpdate buf c).items.length := by
        rw [hit, List.map_append, hid, assignIds_map_id, List.length_append,
          assignIds_length, List.range_add, List.range'_eq_map_range]
      have hseen' : ∀ v, v ∈ (collectUpdate buf c).seen ↔
          v ∈ (collectUpdate buf c).items.map IdItem.value := by
        intro v
        rw [hse v, hval', List.mem_append, hseen v]
      have hnd' : ((collectUpdate buf c).items.map IdItem.value
          ++ cs.flatten.map SourceItem.value).Nodup := by
        rw [hval', List.nodup_append]
        exact ⟨List.nodup_append.2 ⟨hndA, hndB, hdisjAB⟩, hndC, hdisjABC⟩
      obtain ⟨hv, hi⟩ := ih (collectUpdate buf c) hseen' hid' hnd'
      constructor
      · simp only [List.foldl_cons]
        rw [hv, hval', List.flatten_cons, List.map_append, List.append_assoc]
      · simpa using hi

/-- C1 (counterexample).  For the source stream `["a","b","a","c"]` flushed as
one chunk (the behaviour under the default `chunkSize = 1000` for a short
fast source), the collected values are `["a","b","c"]` but the ids are
`[0,1,3]`, not `[0,1,2]`: the duplicate `"a"` consumes chunk position 2, so
`"c"`'s id does not equal its insertion position. -/
theorem collect_c1_counterexample :
    (collectRun [[⟨"a"⟩, ⟨"b"⟩, ⟨"a"⟩, ⟨"c"⟩]]).items.map IdItem.value = ["a", "b", "c"] ∧
      (collectRun [[⟨"a"⟩, ⟨"b"⟩, ⟨"a"⟩, ⟨"c"⟩]]).items.map IdItem.id = [0, 1, 3] ∧
      ¬((collectRun [[⟨"a"⟩, ⟨"b"⟩, ⟨"a"⟩, ⟨"c"⟩]]).items.map IdItem.id = [0, 1, 2]) := by
  refine ⟨?_, ?_, ?_⟩ <;> decide

/-- C1 (amended).  In every collect run the stored items have pairwise
distinct `value`; an item's `id` is the buffer size at its chunk's flush plus
its 0-based position inside the chunk (positions of skipped duplicates
included), so whenever the whole collected stream is duplicate-free the ids
are exactly the 0-based insertion positions `0, 1, 2, …` (and in particular
pairwise distinct). -/
theorem collect_c1_id_assignment (chunks : List (List SourceItem)) :
    ((collectRun chunks).items.map IdItem.value).Nodup ∧
      ((chunks.flatten.map SourceItem.value).Nodup →
        (collectRun chunks).items.map IdItem.id
          = List.range (collectRun chunks).items.length) := by
  constructor
  · exact (uolInv_collectRun chunks).2
  · intro hnd
    have h := collect_fold_clean chunks UniqueOrderedList.empty
      (by intro v; simp [UniqueOrderedList.empty])
      (by simp [UniqueOrderedList.empty])
      (by simpa [UniqueOrderedList.empty] using hnd)
    exact h.2

/-- C1 (witness): the amended theorem applied to the duplicate-free stream
`["a","b"] ++ ["c"]` flushed as two chunks. -/
theorem collect_c1_id_assignment_witness :
    ((collectRun [[⟨"a"⟩, ⟨"b"⟩], [⟨"c"⟩]]).items.map IdItem.value).Nodup ∧
      (collectRun [[⟨"a"⟩, ⟨"b"⟩], [⟨"c"⟩]]).items.map IdItem.id
        = List.range (collectRun [[⟨"a"⟩, ⟨"b"⟩], [⟨"c"⟩]]).items.length :=
  ⟨(collect_c1_id_assignment [[⟨"a"⟩, ⟨"b"⟩], [⟨"c"⟩]]).1,
    (collect_c1_id_assignment [[⟨"a"⟩, ⟨"b"⟩], [⟨"c"⟩]]).2 (by decide)⟩

/-! ### Cancellation (`[Symbol.dispose]` / abort with the `null` sentinel)

Every processor's `start` ends in
`this.#processing.catch((err) => dispatch({ type: "…-failed", err }))`, and
`[Symbol.dispose]` calls `this.#controller.abort(null)`.  An in-flight run is
stopped at its next `signal.throwIfAborted()`, which throws the abort reason
`null`; the catch handler then dispatches the `failed` event with `err = null`.
The model below embeds the collect run; the error payload is
`Option String` with `none` standing for the `null` sentinel. -/

inductive CollectEvent where
  | started
  | updated
  | succeeded
  | failed (err : Option String)
deriving DecidableEq, Repr

/-- The chunk loop of `CollectProcessor.start`, with the abort signal modelled
as a countdown: when it reaches zero the pending `signal.throwIfAborted()`
throws `null` and the catch handler dispatches `collect-processor-failed` with
`err = null`.  Otherwise each flushed chunk runs `update` (dispatching
`collect-processor-updated`) and a completed stream dispatches
`collect-processor-succeeded`. -/
def collectLoop : List (List SourceItem) → Nat → UniqueOrderedList →
    UniqueOrderedList × List CollectEvent
  | _, 0, buf => (buf, [CollectEvent.failed none])
  | [], _ + 1, buf => (buf, [CollectEvent.succeeded])
  | c :: rest, k + 1, buf =>
      let r := collectLoop rest k (collectUpdate buf c)
      (r.1, CollectEvent.updated :: r.2)

/-- One collect execution.  `abortAt = some k` means the processor is disposed
after `k` chunk flushes; `abortAt = none` means the signal never fires. -/
def collectExec (chunks : List (List SourceItem)) (abortAt : Option Nat) :
    UniqueOrderedList × List CollectEvent :=
  let fuel := match abortAt with
    | none => chunks.length + 1
    | some k => k
  let r := collectLoop chunks fuel UniqueOrderedList.empty
  (r.1, CollectEvent.started :: r.2)

/-- The `collect-processor-failed` branch of `Picker.#handleEvent`:
`if (event.err === null) break;` — the failure indicator is set only for a
non-null error payload. -/
def collectFailedMarksFailure : CollectEvent → Bool
  | CollectEvent.failed (some _) => true
  | _ => false

theorem collectLoop_fuel_items (chunks : List (List SourceItem)) :
    ∀ (k : Nat) (buf : UniqueOrderedList), k ≤ chunks.length →
      (collectLoop chunks k buf).1 = (chunks.take k).foldl collectUpdate buf := by
  induction chunks with
  | nil =>
      intro k buf hk
      have hk0 : k = 0 := Nat.le_zero.mp (by simpa using hk)
      subst hk0
      simp [collectLoop]
  | cons c cs ih =>
      intro k buf hk
      match k with
      | 0 => simp [collectLoop]
      | k + 1 =>
          simp only [collectLoop, List.take_succ_cons, List.foldl_cons]
          exact ih k (collectUpdate buf c) (by simpa using hk)

theorem collectLoop_full_items (chunks : List (List SourceItem)) :
    ∀ (buf : UniqueOrderedList),
      (collectLoop chunks (chunks.length + 1) buf).1 = chunks.foldl collectUpdate buf := by
  induction chunks with
  | nil => intro buf; simp [collectLoop]
  | cons c cs ih =>
      intro buf
      simp only [collectLoop, List.length_cons, List.foldl_cons]
      exact ih (collectUpdate buf c)

theorem collectLoop_aborted_events (chunks : List (List SourceItem)) :
    ∀ (k : Nat) (buf : UniqueOrderedList), k ≤ chunks.length →
      (collectLoop chunks k buf).2
        = List.replicate k CollectEvent.updated ++ [CollectEvent.failed none] := by
  induction chunks with
  | nil =>
      intro k buf hk
      have hk0 : k = 0 := Nat.le_zero.mp (by simpa using hk)
      subst hk0
      simp [collectLoop]
  | cons c cs ih =>
      intro k buf hk
      match k with
      | 0 => simp [collectLoop]
      | k + 1 =>
          simp only [collectLoop, List.replicate_succ, List.cons_append]
          rw [ih k (collectUpdate buf c) (by simpa using hk)]

/-- `push` only ever appends, so the buffer of a longer run extends the buffer
of a shorter one. -/
theorem push_items_extends (xs : List IdItem) :
    ∀ (l : UniqueOrderedList), ∃ rest, (l.push xs).items = l.items ++ rest := by
  induction xs with
  | nil => intro l; exact ⟨[], by simp [UniqueOrderedList.push]⟩
  | cons x xs ih =>
      intro l
      have hstep : l.push (x :: xs) = (l.push1 x).push xs := by
        simp [UniqueOrderedList.push, List.foldl_cons]
      obtain ⟨rest, hrest⟩ := ih (l.push1 x)
      by_cases hx : x.value ∈ l.seen
      · refine ⟨rest, ?_⟩
        rw [hstep, hrest]
        simp [UniqueOrderedList.push1, hx]
      · refine ⟨x :: rest, ?_⟩
        rw [hstep, hrest]
        simp [UniqueOrderedList.push1, hx]

theorem collect_foldl_extends (chunks : List (List SourceItem)) :
    ∀ (buf : UniqueOrderedList),
      ∃ rest, (chunks.foldl collectUpdate buf).items = buf.items ++ rest := by
  induction chunks with
  | nil => intro buf; exact ⟨[], by simp⟩
  | cons c cs ih =>
      intro buf
      obtain ⟨r1, h1⟩ := push_items_extends (assignIds buf.items.length c) buf
      obtain ⟨r2, h2⟩ := ih (collectUpdate buf c)
      refine ⟨r1 ++ r2, ?_⟩
      simp only [List.foldl_cons]
      rw [h2]
      unfold collectUpdate
      rw [h1, List.append_assoc]

/-! ### `processor/match.ts` (the variant carrying `#previousQuery`)

The match processor used by the picker (`src/unnamed/part_007`) caches the
query of the last run it actually began.  `start` returns synchronously; the
matcher run itself completes later.  The model splits an execution into the
synchronous `startCall` transition and a `finishRun` transition for the
completion of the in-flight run (the tail of the async body together with the
`.finally`/`.then` continuation that fires the reserved request). -/

inductive MatchEvent where
  | started
  | updated
  | succeeded
  | failed (err : Option String)
deriving DecidableEq, Repr

structure MatchState where
  /-- whether `#processing` currently holds a pending promise -/
  processing : Bool
  /-- `#previousQuery` -/
  previousQuery : Option String
  /-- `#items`, the published matched list -/
  items : List IdItem
  /-- `#reserved`, the most recent start request kept for later -/
  reserved : Option (String × List IdItem)
deriving DecidableEq, Repr

/-- The synchronous part of `MatchProcessor.start` (part_007 lines 90-147).
Returns the new state, the events dispatched synchronously, and whether a new
matcher run was started.  With `query === #previousQuery` the call is a no-op
apart from re-dispatching `succeeded` when idle; with a run in flight the
request is reserved (and `restart` aborts the current run); otherwise the
async body begins synchronously: it dispatches `started` and sets
`#previousQuery` before its first await. -/
def MatchProcessor.startCall (s : MatchState) (items : List IdItem) (query : String) :
    MatchState × List MatchEvent × Bool :=
  if s.previousQuery = some query then
    if s.processing then (s, [], false) else (s, [MatchEvent.succeeded], false)
  else if s.processing then
    ({ s with reserved := some (query, items) }, [], false)
  else
    ({ s with processing := true, previousQuery := some query },
      [MatchEvent.started], true)

/-- Completion of the in-flight matcher run with result `matched`: the async
body publishes `#items = matchedItems` and dispatches `succeeded`; the
`.finally` clears `#processing` and the `.then` invokes and clears the
reserved request.  Identity when no run is in flight. -/
def MatchProcessor.finishRun (s : MatchState) (matched : List IdItem) :
    MatchState × List MatchEvent :=
  if s.processing then
    let s1 : MatchState :=
      { s with processing := false, items := matched, reserved := none }
    match s.reserved with
    | none => (s1, [MatchEvent.succeeded])
    | some (q, its) =>
        let r := MatchProcessor.startCall s1 its q
        (r.1, MatchEvent.succeeded :: r.2.1)
  else (s, [])

/-- C2.  Starting the match processor with a query equal to the previously
started one is a no-op in every state: the state — including the published
matched list and any pending reservation — is unchanged and no new matcher
run begins; exactly one extra `match-processor-succeeded` is dispatched when
the processor is idle, and nothing is dispatched while a run is in flight.
Consequently, running a fresh query to completion from an idle state and then
starting the same query again leaves the matched list at the completed result
with a single additional `succeeded`. -/
theorem match_c2_query_idempotent (s : MatchState) (items its : List IdItem)
    (query q : String) (matched : List IdItem)
    (hprev : s.previousQuery = some query) :
    (MatchProcessor.startCall s items query).1 = s ∧
      (MatchProcessor.startCall s items query).2.2 = false ∧
      (s.processing = false →
        (MatchProcessor.startCall s items query).2.1 = [MatchEvent.succeeded]) ∧
      (s.processing = true →
        (MatchProcessor.startCall s items query).2.1 = []) ∧
      (s.processing = false → s.reserved = none → s.previousQuery ≠ some q →
        (let s1 := (MatchProcessor.startCall s its q).1
         let s2 := (MatchProcessor.finishRun s1 matched).1
         let r3 := MatchProcessor.startCall s2 its q
         s2.items = matched ∧ r3.1 = s2 ∧ r3.2.2 = false ∧
           r3.2.1 = [MatchEvent.succeeded])) := by
  have hstart : MatchProcessor.startCall s items query
      = (s, (if s.processing then [] else [MatchEvent.succeeded]), false) := by
    unfold MatchProcessor.startCall
    rw [if_pos hprev]
    cases s.processing <;> simp
  refine ⟨by rw [hstart], by rw [hstart], ?_, ?_, ?_⟩
  · intro h
    rw [hstart, h]
    simp
  · intro h
    rw [hstart, h]
    simp
  · intro hidle hres hq
    have hs1 : (MatchProcessor.startCall s its q).1
        = { s with processing := true, previousQuery := some q } := by
      unfold MatchProcessor.startCall
      simp [hq, hidle]
    have hs2 : (MatchProcessor.finishRun (MatchProcessor.startCall s its q).1 matched).1
        = ⟨false, some q, matched, none⟩ := by
      rw [hs1]
      unfold MatchProcessor.finishRun
      simp [hres]
    refine ⟨by rw [hs2], ?_, ?_, ?_⟩
    · rw [hs2]
      unfold MatchProcessor.startCall
      simp
    · rw [hs2]
      unfold MatchProcessor.startCall
      simp
    · rw [hs2]
      unfold MatchProcessor.startCall
      simp

/-- C2 (witness): the theorem at two concrete states with previous query
`"ab"` — one idle (one `succeeded` re-dispatched, then exercised on the fresh
query `"abc"`), one with a run in flight (nothing dispatched, state and
reservation untouched). -/
theorem match_c2_query_idempotent_witness :
    ((MatchProcessor.startCall ⟨false, some "ab", [⟨0, "a"⟩], none⟩ [] "ab").1
        = ⟨false, some "ab", [⟨0, "a"⟩], none⟩ ∧
      (MatchProcessor.startCall ⟨false, some "ab", [⟨0, "a"⟩], none⟩ [] "ab").2.2
        = false ∧
      (MatchProcessor.startCall ⟨false, some "ab", [⟨0, "a"⟩], none⟩ [] "ab").2.1
        = [MatchEvent.succeeded]) ∧
      ((MatchProcessor.startCall ⟨true, some "ab", [⟨0, "a"⟩], some ("x", [])⟩
          [] "ab").1
        = ⟨true, some "ab", [⟨0, "a"⟩], some ("x", [])⟩ ∧
      (MatchProcessor.startCall ⟨true, some "ab", [⟨0, "a"⟩], some ("x", [])⟩
          [] "ab").2.2 = false ∧
      (MatchProcessor.startCall ⟨true, some "ab", [⟨0, "a"⟩], some ("x", [])⟩
          [] "ab").2.1 = []) ∧
      (let s1 := (MatchProcessor.startCall ⟨false, some "ab", [⟨0, "a"⟩], none⟩
        [⟨0, "a"⟩] "abc").1
       let s2 := (MatchProcessor.finishRun s1 [⟨0, "a"⟩]).1
       let r3 := MatchProcessor.startCall s2 [⟨0, "a"⟩] "abc"
       s2.items = [⟨0, "a"⟩] ∧ r3.1 = s2 ∧ r3.2.2 = false ∧
         r3.2.1 = [MatchEvent.succeeded]) :=
  have h1 := match_c2_query_idempotent ⟨false, some "ab", [⟨0, "a"⟩], none⟩ []
    [⟨0, "a"⟩] "ab" "abc" [⟨0, "a"⟩] rfl
  have h2 := match_c2_query_idempotent ⟨true, some "ab", [⟨0, "a"⟩], some ("x", [])⟩
    [] [⟨0, "a"⟩] "ab" "abc" [⟨0, "a"⟩] rfl
  ⟨⟨h1.1, h1.2.1, h1.2.2.1 rfl⟩,
    ⟨h2.1, h2.2.1, h2.2.2.2.1 rfl⟩,
    h1.2.2.2.2 rfl rfl (by decide)⟩

/-- The five pipeline stages whose `{stage}-processor-failed` events the
picker handles. -/
inductive Stage where
  | collect
  | matcher
  | sorter
  | renderer
  | previewer
deriving DecidableEq, Repr

/-- The `{stage}-processor-failed` branches of `Picker.#handleEvent`
(part_010): whether handling the event with payload `err` marks the input
component's failure indicator.  The collect (lines 923-930) and match
(951-958) handlers check `event.err === null` before marking, so the null
sentinel is ignored entirely; the sort (969-982), render (996-1003) and
preview (1011-1018) handlers assign `processing = "failed"` before that
check, so they mark the indicator for every payload, the null sentinel
included. -/
def failedMarksIndicator : Stage → Option String → Bool
  | Stage.collect, err => err.isSome
  | Stage.matcher, err => err.isSome
  | Stage.sorter, _ => true
  | Stage.renderer, _ => true
  | Stage.previewer, _ => true

/-- Abort of an in-flight batched-mode match run (dispose → `abort(null)`):
the async body throws the null reason at `signal.throwIfAborted()` or inside
`delay` before `this.#items = matchedItems` is reached, so the published list
keeps its previous value; the catch dispatches `match-processor-failed` with
`err = null` and the `.finally` clears `#processing`.  (A pending reservation
would be replayed by the `.then` continuation, but on a disposed processor
that replay throws `The processor is already disposed` and changes no
state.) -/
def MatchProcessor.abortRun (s : MatchState) : MatchState × List MatchEvent :=
  if s.processing then
    ({ s with processing := false }, [MatchEvent.failed none])
  else (s, [])

/-- C3 (counterexample).  Disposing the collect processor right after the run
started makes the run dispatch a `collect-processor-failed` event (with the
`null` sentinel as payload), so "the cancelled run emits no `*-failed` event"
is false as stated: the event list is `[started, failed null]`. -/
theorem collect_c3_counterexample :
    (collectExec [[⟨"a"⟩]] (some 0)).2
        = [CollectEvent.started, CollectEvent.failed none] ∧
      CollectEvent.failed none ∈ (collectExec [[⟨"a"⟩]] (some 0)).2 := by
  refine ⟨?_, ?_⟩ <;> decide

/-- C3 (amended).  Disposing a processor mid-run aborts it with the `null`
sentinel: the run dispatches a `*-failed` event whose payload is `null`, and
no event carrying a non-null error is dispatched (the dispose/catch pattern
is identical in all five processors).  How the picker treats that dispatch
differs by stage: the collect and match failed-handlers check for the null
payload first and ignore it entirely, while the sort, render and preview
failed-handlers set the input component's failure indicator before the null
check, so for those three stages disposal does mark the indicator (nothing
further: no logging, no error propagation).  The collect buffer publishes
exactly the flushes made before the disposal point, a prefix of what a full
run would publish; the batched-mode match processor publishes nothing on a
cancelled run, leaving its previously published matched list unchanged. -/
theorem collect_c3_dispose_cancellation (chunks : List (List SourceItem)) (k : Nat)
    (hk : k ≤ chunks.length) :
    (∀ e ∈ (collectExec chunks (some k)).2, collectFailedMarksFailure e = false) ∧
      (∀ err, CollectEvent.failed (some err) ∉ (collectExec chunks (some k)).2) ∧
      (collectExec chunks (some k)).1.items = (collectRun (chunks.take k)).items ∧
      (∃ rest, (collectExec chunks none).1.items
        = (collectExec chunks (some k)).1.items ++ rest) ∧
      (failedMarksIndicator Stage.collect none = false ∧
        failedMarksIndicator Stage.matcher none = false ∧
        failedMarksIndicator Stage.sorter none = true ∧
        failedMarksIndicator Stage.renderer none = true ∧
        failedMarksIndicator Stage.previewer none = true) ∧
      (∀ s : MatchState, (MatchProcessor.abortRun s).1.items = s.items ∧
        (MatchProcessor.abortRun s).2
          = (if s.processing then [MatchEvent.failed none] else []) ∧
        (∀ err, MatchEvent.failed (some err) ∉ (MatchProcessor.abortRun s).2)) := by
  have hev : (collectExec chunks (some k)).2
      = CollectEvent.started ::
        (List.replicate k CollectEvent.updated ++ [CollectEvent.failed none]) := by
    unfold collectExec
    simp only
    rw [collectLoop_aborted_events chunks k UniqueOrderedList.empty hk]
  have hitems : (collectExec chunks (some k)).1 = (chunks.take k).foldl collectUpdate
      UniqueOrderedList.empty := by
    unfold collectExec
    simp only
    rw [collectLoop_fuel_items chunks k UniqueOrderedList.empty hk]
  have hfull : (collectExec chunks none).1 = chunks.foldl collectUpdate
      UniqueOrderedList.empty := by
    unfold collectExec
    simp only
    rw [collectLoop_full_items chunks UniqueOrderedList.empty]
  refine ⟨?_, ?_, ?_, ?_, ?_, ?_⟩
  · intro e he
    rw [hev] at he
    simp only [List.mem_cons, List.mem_append, List.mem_replicate,
      List.mem_singleton, List.not_mem_nil, or_false] at he
    rcases he with rfl | ⟨_, rfl⟩ | rfl <;> rfl
  · intro err hmem
    rw [hev] at hmem
    simp at hmem
  · rw [hitems]; rfl
  · rw [hfull, hitems]
    obtain ⟨rest, hr⟩ := collect_foldl_extends (chunks.drop k)
      ((chunks.take k).foldl collectUpdate UniqueOrderedList.empty)
    refine ⟨rest, ?_⟩
    rw [← hr]
    congr 1
    rw [← List.foldl_append, List.take_append_drop]
  · exact ⟨rfl, rfl, rfl, rfl, rfl⟩
  · intro s
    refine ⟨?_, ?_, ?_⟩
    · unfold MatchProcessor.abortRun
      split <;> rfl
    · unfold MatchProcessor.abortRun
      split
      · next h => simp [h]
      · next h => simp [h]
    · intro err hmem
      unfold MatchProcessor.abortRun at hmem
      split at hmem <;> simp at hmem

/-- C3 (witness): the amended theorem for a two-chunk stream disposed after
one flush. -/
theorem collect_c3_dispose_cancellation_witness :
    (∀ e ∈ (collectExec [[⟨"a"⟩], [⟨"b"⟩]] (some 1)).2, collectFailedMarksFailure e = false) ∧
      (∀ err, CollectEvent.failed (some err) ∉ (collectExec [[⟨"a"⟩], [⟨"b"⟩]] (some 1)).2) ∧
      (collectExec [[⟨"a"⟩], [⟨"b"⟩]] (some 1)).1.items
        = (collectRun [[⟨"a"⟩]]).items ∧
      (∃ rest, (collectExec [[⟨"a"⟩], [⟨"b"⟩]] none).1.items
        = (collectExec [[⟨"a"⟩], [⟨"b"⟩]] (some 1)).1.items ++ rest) ∧
      (failedMarksIndicator Stage.collect none = false ∧
        failedMarksIndicator Stage.matcher none = false ∧
        failedMarksIndicator Stage.sorter none = true ∧
        failedMarksIndicator Stage.renderer none = true ∧
        failedMarksIndicator Stage.previewer none = true) ∧
      ((MatchProcessor.abortRun ⟨true, some "q", [⟨0, "a"⟩], none⟩).1.items
          = [⟨0, "a"⟩] ∧
        (MatchProcessor.abortRun ⟨true, some "q", [⟨0, "a"⟩], none⟩).2
          = [MatchEvent.failed none] ∧
        (∀ err, MatchEvent.failed (some err)
          ∉ (MatchProcessor.abortRun ⟨true, some "q", [⟨0, "a"⟩], none⟩).2)) := by
  have h := collect_c3_dispose_cancellation [[⟨"a"⟩], [⟨"b"⟩]] 1 (by decide)
  have hm := h.2.2.2.2.2 ⟨true, some "q", [⟨0, "a"⟩], none⟩
  exact ⟨h.1, h.2.1, by simpa using h.2.2.1, h.2.2.2.1, h.2.2.2.2.1,
    hm.1, by simpa using hm.2.1, hm.2.2⟩

/-! ### `session.ts` and the session-save boundary of `main/picker.ts`

The module-level `sessions` array is modelled as a chronological list (oldest
first).  Compression (`compressPickerSession` / `decompressPickerSession`)
only re-encodes the `context` payload, so the context is kept abstract as an
opaque `Nat` tag. -/

structure Session where
  name : String
  ctx : Nat
deriving DecidableEq, Repr

def MAX_SESSION_COUNT : Nat := 100

/-- `savePickerSession`: `sessions.push(compressed); if (sessions.length >
MAX_SESSION_COUNT) sessions.shift();` -/
def savePickerSession (store : List Session) (s : Session) : List Session :=
  if MAX_SESSION_COUNT < (store ++ [s]).length then (store ++ [s]).drop 1
  else store ++ [s]

/-- `listPickerSessions`: `sessions.slice().reverse()` — newest first. -/
def listPickerSessions (store : List Session) : List Session :=
  store.reverse

/-- JavaScript `Array.prototype.at`: a negative index counts from the end of
the array; outside `[-length, length)` the result is `undefined`. -/
def jsArrayAt (l : List Session) (i : Int) : Option Session :=
  if 0 ≤ (if i < 0 then i + l.length else i) ∧
      (if i < 0 then i + l.length else i) < (l.length : Int) then
    l.get? (if i < 0 then i + l.length else i).toNat
  else none

/-- The `filteredSessions` of `loadPickerSession`: `name ? sessions.filter((s)
=> s.name === name) : sessions` — a JavaScript falsy name (absent or the empty
string) skips the filter. -/
def loadFiltered (store : List Session) (name : Option String) : List Session :=
  match name with
  | some n => if n = "" then store else store.filter (fun s => s.name = n)
  | none => store

/-- `loadPickerSession({name, number})`: filter by `name` when it is truthy,
take `filteredSessions.at(filtered.length - (number ?? 1))`, and decompress
the hit (decompression is the identity on the modelled payload). -/
def loadPickerSession (store : List Session) (name : Option String)
    (number : Option Int) : Option Session :=
  jsArrayAt (loadFiltered store name)
    ((loadFiltered store name).length - number.getD 1)

/-- `SESSION_EXCLUDE_SOURCES` of `main/picker.ts`. -/
def SESSION_EXCLUDE_SOURCES : List String := ["@action", "@session"]

/-- The deferred save installed by `startPicker` (main/picker.ts 215-225): on
picker teardown the session is saved unless the picker name is one of the two
excluded sources. -/
def startPickerDeferredSave (store : List Session) (s : Session) : List Session :=
  if s.name ∈ SESSION_EXCLUDE_SOURCES then store else savePickerSession store s

theorem savePickerSession_length_le (store : List Session) (s : Session)
    (h : store.length ≤ MAX_SESSION_COUNT) :
    (savePickerSession store s).length ≤ MAX_SESSION_COUNT := by
  unfold savePickerSession MAX_SESSION_COUNT at *
  split
  · simp only [List.length_drop, List.length_append, List.length_singleton]
    omega
  · next hlt =>
      simp only [List.length_append, List.length_singleton, not_lt] at hlt ⊢
      omega

theorem saves_length_le (saves : List Session) :
    ∀ (store : List Session), store.length ≤ MAX_SESSION_COUNT →
      (saves.foldl savePickerSession store).length ≤ MAX_SESSION_COUNT := by
  induction saves with
  | nil => intro store h; exact h
  | cons s ss ih =>
      intro store h
      exact ih _ (savePickerSession_length_le store s h)

set_option maxRecDepth 100000 in
/-- C5.  The session ring: after any sequence of saves starting from the empty
store at most 100 sessions are held; a save onto a full store drops the oldest
(front) entry; `list()` puts the latest save at position 0; and saving the 105
sessions `s0..s104` leaves 100 sessions listed newest-first, `s104` at
position 0 and `s5` the oldest remaining. -/
theorem session_c5_ring (saves : List Session) (store : List Session) (s : Session)
    (hfull : store.length = MAX_SESSION_COUNT) :
    (saves.foldl savePickerSession []).length ≤ 100 ∧
      savePickerSession store s = store.drop 1 ++ [s] ∧
      (∀ st : List Session, ∀ x : Session,
        (listPickerSessions (savePickerSession st x)).head? = some x) ∧
      (let final := ((List.range 105).map
          (fun i => Session.mk ("s" ++ toString i) i)).foldl savePickerSession []
       (listPickerSessions final).length = 100 ∧
         (listPickerSessions final).head? = some ⟨"s104", 104⟩ ∧
         (listPickerSessions final).getLast? = some ⟨"s5", 5⟩) := by
  refine ⟨saves_length_le saves [] (by simp [MAX_SESSION_COUNT]), ?_, ?_, ?_⟩
  · unfold savePickerSession
    rw [if_pos (by simp [List.length_append, hfull])]
    rw [List.drop_append_of_le_length (by rw [hfull]; decide)]
  · intro st x
    unfold savePickerSession listPickerSessions
    rw [List.head?_reverse]
    split
    · next hlen =>
        rw [List.drop_append_of_le_length (by
          simp only [List.length_append, List.length_singleton, MAX_SESSION_COUNT] at hlen ⊢
          omega)]
        simp
    · simp
  · decide

set_option maxRecDepth 100000 in
/-- C5 (witness): the ring theorem applied to a concrete full store of 100
sessions. -/
theorem session_c5_ring_witness :
    (([] : List Session).foldl savePickerSession []).length ≤ 100 ∧
      savePickerSession ((List.range 100).map (fun i => Session.mk "x" i)) ⟨"y", 0⟩
        = ((List.range 100).map (fun i => Session.mk "x" i)).drop 1 ++ [⟨"y", 0⟩] ∧
      (∀ st : List Session, ∀ x : Session,
        (listPickerSessions (savePickerSession st x)).head? = some x) ∧
      (let final := ((List.range 105).map
          (fun i => Session.mk ("s" ++ toString i) i)).foldl savePickerSession []
       (listPickerSessions final).length = 100 ∧
         (listPickerSessions final).head? = some ⟨"s104", 104⟩ ∧
         (listPickerSessions final).getLast? = some ⟨"s5", 5⟩) :=
  session_c5_ring [] ((List.range 100).map (fun i => Session.mk "x" i)) ⟨"y", 0⟩
    (by simp [MAX_SESSION_COUNT])

/-- C6 (counterexample).  With three stored sessions named `"file"`,
`load({name: "file", number: 4})` asks for a number greater than the count of
matching sessions, yet it does not return undefined: the index `3 - 4 = -1`
wraps around under JavaScript `Array.prototype.at` and yields the most recent
matching session. -/
theorem session_c6_counterexample :
    (3 : Int) < 4 ∧
      (loadFiltered [⟨"file", 1⟩, ⟨"file", 2⟩, ⟨"file", 3⟩] (some "file")).length = 3 ∧
      loadPickerSession [⟨"file", 1⟩, ⟨"file", 2⟩, ⟨"file", 3⟩] (some "file") (some 4)
        = some ⟨"file", 3⟩ ∧
      loadPickerSession [⟨"file", 1⟩, ⟨"file", 2⟩, ⟨"file", 3⟩] (some "file") (some 4)
        ≠ none := by
  refine ⟨by decide, by decide, by decide, by decide⟩

/-- The filtered view used by session lookup for a given (truthy) name. -/
def filterByName (store : List Session) (nm : String) : List Session :=
  store.filter (fun s => s.name = nm)

theorem jsArrayAt_eq_none_iff (l : List Session) (i : Int) :
    jsArrayAt l i = none ↔ i < -(l.length : Int) ∨ (l.length : Int) ≤ i := by
  unfold jsArrayAt
  by_cases hneg : i < 0
  · simp only [hneg, if_true]
    by_cases hin : 0 ≤ i + (l.length : Int) ∧ i + (l.length : Int) < (l.length : Int)
    · rw [if_pos hin]
      constructor
      · intro h
        rw [List.get?_eq_none] at h
        omega
      · intro h; omega
    · rw [if_neg hin]
      simp only [true_iff]
      omega
  · simp only [hneg, if_false]
    by_cases hin : 0 ≤ i ∧ i < (l.length : Int)
    · rw [if_pos hin]
      constructor
      · intro h
        rw [List.get?_eq_none] at h
        omega
      · intro h; omega
    · rw [if_neg hin]
      simp only [true_iff]
      omega

theorem jsArrayAt_of_nonneg (l : List Session) (i : Int) (h0 : 0 ≤ i) :
    jsArrayAt l i = (if i < (l.length : Int) then l.get? i.toNat else none) := by
  unfold jsArrayAt
  have hx : ¬i < 0 := by omega
  simp only [hx, if_false]
  by_cases hlt : i < (l.length : Int)
  · rw [if_pos ⟨h0, hlt⟩, if_pos hlt]
  · rw [if_neg (fun hc => hlt hc.2), if_neg hlt]

theorem jsArrayAt_of_neg (l : List Session) (i : Int) (hneg : i < 0)
    (h0 : 0 ≤ i + (l.length : Int)) :
    jsArrayAt l i = l.get? (i + l.length).toNat := by
  unfold jsArrayAt
  simp only [hneg, if_true]
  rw [if_pos ⟨h0, by omega⟩]

/-- C6 (amended).  `load({name, number})` filters the store by a truthy
`name`, computes `index = filtered.length - (number ?? 1)` and returns
`filtered.at(index)` under JavaScript semantics, where a negative index counts
from the end.  Hence it returns undefined exactly when `number ≤ 0` or
`number > 2 * count`; for `1 ≤ number ≤ count` it returns
`filtered[count - number]` as the spec describes, but for
`count < number ≤ 2 * count` it wraps around and returns
`filtered[2 * count - number]` instead of undefined.  When no session matches
it always returns undefined. -/
theorem session_c6_load (store : List Session) (nm : String) (n : Int)
    (hnm : nm ≠ "") :
    (loadPickerSession store (some nm) (some n)
        = jsArrayAt (filterByName store nm) ((filterByName store nm).length - n)) ∧
      (loadPickerSession store (some nm) (some n) = none ↔
        n ≤ 0 ∨ 2 * ((filterByName store nm).length : Int) < n) ∧
      (0 < n → n ≤ ((filterByName store nm).length : Int) →
        loadPickerSession store (some nm) (some n)
          = (filterByName store nm).get?
              (((filterByName store nm).length : Int) - n).toNat) ∧
      (((filterByName store nm).length : Int) < n →
        n ≤ 2 * ((filterByName store nm).length : Int) →
        loadPickerSession store (some nm) (some n)
          = (filterByName store nm).get?
              (2 * ((filterByName store nm).length : Int) - n).toNat) := by
  have hfil : loadFiltered store (some nm) = filterByName store nm := by
    simp only [loadFiltered, filterByName, if_neg hnm]
  have hload : loadPickerSession store (some nm) (some n)
      = jsArrayAt (filterByName store nm) ((filterByName store nm).length - n) := by
    unfold loadPickerSession
    rw [hfil]
    rfl
  refine ⟨hload, ?_, ?_, ?_⟩
  · rw [hload, jsArrayAt_eq_none_iff]
    omega
  · intro h1 h2
    rw [hload, jsArrayAt_of_nonneg _ _ (by omega), if_pos (by omega)]
  · intro h1 h2
    rw [hload, jsArrayAt_of_neg _ _ (by omega) (by omega)]
    have harg : ((filterByName store nm).length : Int) - n
        + ((filterByName store nm).length : Int)
        = 2 * ((filterByName store nm).length : Int) - n := by omega
    rw [harg]

/-- C6 (witness): the amended characterisation at a concrete store with three
sessions, two of them named `"file"`, looked up with `number = 2`. -/
theorem session_c6_load_witness :
    (loadPickerSession [⟨"file", 1⟩, ⟨"buf", 2⟩, ⟨"file", 3⟩] (some "file") (some 2)
        = jsArrayAt (filterByName [⟨"file", 1⟩, ⟨"buf", 2⟩, ⟨"file", 3⟩] "file")
            ((filterByName [⟨"file", 1⟩, ⟨"buf", 2⟩, ⟨"file", 3⟩] "file").length - 2)) ∧
      (loadPickerSession [⟨"file", 1⟩, ⟨"buf", 2⟩, ⟨"file", 3⟩] (some "file") (some 2)
          = none ↔
        (2 : Int) ≤ 0 ∨
          2 * ((filterByName [⟨"file", 1⟩, ⟨"buf", 2⟩, ⟨"file", 3⟩] "file").length : Int)
            < 2) ∧
      loadPickerSession [⟨"file", 1⟩, ⟨"buf", 2⟩, ⟨"file", 3⟩] (some "file") (some 2)
        = (filterByName [⟨"file", 1⟩, ⟨"buf", 2⟩, ⟨"file", 3⟩] "file").get?
            (((filterByName [⟨"file", 1⟩, ⟨"buf", 2⟩, ⟨"file", 3⟩] "file").length : Int)
              - 2).toNat := by
  have h := session_c6_load [⟨"file", 1⟩, ⟨"buf", 2⟩, ⟨"file", 3⟩] "file" 2 (by decide)
  exact ⟨h.1, h.2.1, h.2.2.1 (by decide) (by decide)⟩

/-- C7 (counterexample).  `savePickerSession` itself performs no name check:
saving a session named `"@action"` directly changes the store, and the session
is afterwards retrievable through both `list` and `load`. -/
theorem session_c7_counterexample :
    savePickerSession [] ⟨"@action", 7⟩ = [⟨"@action", 7⟩] ∧
      savePickerSession [] ⟨"@action", 7⟩ ≠ [] ∧
      listPickerSessions (savePickerSession [] ⟨"@action", 7⟩) = [⟨"@action", 7⟩] ∧
      loadPickerSession (savePickerSession [] ⟨"@action", 7⟩) (some "@action") none
        = some ⟨"@action", 7⟩ := by
  refine ⟨by decide, by decide, by decide, by decide⟩

/-- C7 (amended).  The `@`-name rejection does not live at the store's save
boundary: `savePickerSession` appends any session unconditionally (evicting
the oldest beyond 100).  The only rejection is in `startPicker`'s deferred
save, and it skips exactly the two names `"@action"` and `"@session"` — any
other `@`-prefixed name (e.g. `"@foo"`) would be saved by that path too. -/
theorem session_c7_reserved (store : List Session) (s : Session) :
    (s.name ∈ SESSION_EXCLUDE_SOURCES → startPickerDeferredSave store s = store) ∧
      (s.name ∉ SESSION_EXCLUDE_SOURCES →
        startPickerDeferredSave store s = savePickerSession store s) ∧
      (store.length < MAX_SESSION_COUNT → savePickerSession store s = store ++ [s]) := by
  refine ⟨?_, ?_, ?_⟩
  · intro h
    unfold startPickerDeferredSave
    rw [if_pos h]
  · intro h
    unfold startPickerDeferredSave
    rw [if_neg h]
  · intro h
    unfold savePickerSession
    rw [if_neg (by simp only [List.length_append, List.length_singleton, not_lt]; omega)]

/-- C7 (witness): the amended theorem at the reserved name `"@session"` on a
store of one session, and — via the save clause — at the `@`-prefixed but
non-reserved name `"@foo"`, which is retained. -/
theorem session_c7_reserved_witness :
    (Session.mk "@session" 1).name ∈ SESSION_EXCLUDE_SOURCES ∧
      startPickerDeferredSave [⟨"x", 0⟩] ⟨"@session", 1⟩ = [⟨"x", 0⟩] ∧
      (Session.mk "@foo" 2).name ∉ SESSION_EXCLUDE_SOURCES ∧
      startPickerDeferredSave [⟨"x", 0⟩] ⟨"@foo", 2⟩
        = savePickerSession [⟨"x", 0⟩] ⟨"@foo", 2⟩ ∧
      savePickerSession [⟨"x", 0⟩] ⟨"@foo", 2⟩ = [⟨"x", 0⟩] ++ [⟨"@foo", 2⟩] :=
  ⟨by decide,
    (session_c7_reserved [⟨"x", 0⟩] ⟨"@session", 1⟩).1 (by decide),
    by decide,
    (session_c7_reserved [⟨"x", 0⟩] ⟨"@foo", 2⟩).2.1 (by decide),
    (session_c7_reserved [⟨"x", 0⟩] ⟨"@foo", 2⟩).2.2 (by decide)⟩

/-! ### The render processor (`RenderProcessor`, src/unnamed/part_006)

State: `#itemCount`, `#cursor`, `#offset`, `#height`, `#scrollOffset` —
JavaScript numbers, modelled as `Int`.  The operations are the cursor setter
(integer or `"$"`), relative cursor moves (`cursor += amount` via the
getter/setter pair), the height setter, and `start({items})`; each `start` is
modelled as running to completion before the next operation (the processor
reserves overlapping starts and replays the most recent one). -/

/-- `#adjustCursor`: `if (cursor < 0) cursor = 0; else if (cursor >=
this.#itemCount) cursor = this.#itemCount - 1;` — note that with
`itemCount = 0` a non-negative cursor is clamped to `-1`. -/
def clampCursor (c count : Int) : Int :=
  if c < 0 then 0 else if count ≤ c then count - 1 else c

/-- Modelled from the spec: the implementation of `lib/adjust_offset.ts` is
imported by the render processor but is not among the sources.  Spec §4.8 and
§3: recompute the offset so the cursor sits within the visible window
`[offset, offset + height)`, keeping the cursor inside
`[offset + scrollOffset, offset + height - scrollOffset)` when the window is
tall enough to honour the margin, and clamp the offset into
`[0, max 0 (count - height)]`.  The margin actually honoured: -/
def scrollMargin (height scrollOffset : Int) : Int :=
  if 0 ≤ scrollOffset ∧ 2 * scrollOffset ≤ height - 1 then scrollOffset else 0

/-- Modelled from the spec: move the offset the least amount that brings the
cursor inside `[offset + margin, offset + height - margin)`. -/
def clampWindow (offset cursor height margin : Int) : Int :=
  if cursor - margin < offset then cursor - margin
  else if offset < cursor - (height - 1) + margin then cursor - (height - 1) + margin
  else offset

/-- Modelled from the spec: the upper clamp `max 0 (count - height)` for the
offset. -/
def maxOffset (count height : Int) : Int :=
  if count - height < 0 then 0 else count - height

/-- Modelled from the spec: `adjustOffset(offset, cursor, count, height,
scrollOffset)` of `lib/adjust_offset.ts`. -/
def adjustOffset (offset cursor count height scrollOffset : Int) : Int :=
  if clampWindow offset cursor height (scrollMargin height scrollOffset) < 0 then 0
  else if maxOffset count height
      < clampWindow offset cursor height (scrollMargin height scrollOffset) then
    maxOffset count height
  else clampWindow offset cursor height (scrollMargin height scrollOffset)

structure RenderState where
  itemCount : Int
  cursor : Int
  offset : Int
  height : Int
  scrollOffset : Int
deriving DecidableEq, Repr

/-- Field defaults of the processor: `HEIGHT = 10`, `SCROLL_OFFSET = 2`,
`#itemCount = 0`, `#cursor = 0`, `#offset = 0`. -/
def RenderState.initial : RenderState := ⟨0, 0, 0, 10, 2⟩

def RenderState.adjustCursor (s : RenderState) (c : Int) : RenderState :=
  { s with cursor := clampCursor c s.itemCount }

def RenderState.adjustOffsetS (s : RenderState) : RenderState :=
  { s with offset := adjustOffset s.offset s.cursor s.itemCount s.height s.scrollOffset }

inductive RenderOp where
  /-- `processor.cursor = c` -/
  | setCursor (c : Int)
  /-- `processor.cursor = "$"` (becomes `itemCount - 1`) -/
  | setCursorLast
  /-- `processor.cursor += amount` (the `move-cursor` event) -/
  | moveCursor (amount : Int)
  /-- `processor.height = h` -/
  | setHeight (h : Int)
  /-- `start({items})`: sets `#itemCount`, re-clamps the cursor at its current
  value, recomputes the offset -/
  | start (items : List IdItem)
deriving Repr

def renderStep (s : RenderState) : RenderOp → RenderState
  | RenderOp.setCursor c => (s.adjustCursor c).adjustOffsetS
  | RenderOp.setCursorLast => (s.adjustCursor (s.itemCount - 1)).adjustOffsetS
  | RenderOp.moveCursor a => (s.adjustCursor (s.cursor + a)).adjustOffsetS
  | RenderOp.setHeight h => (RenderState.mk s.itemCount s.cursor s.offset h
      s.scrollOffset).adjustOffsetS
  | RenderOp.start items =>
      ((RenderState.mk (items.length : Int) s.cursor s.offset s.height
        s.scrollOffset).adjustCursor s.cursor).adjustOffsetS

def renderRun (ops : List RenderOp) : RenderState :=
  ops.foldl renderStep RenderState.initial

/-- The well-behaved operations of the amended claim: heights set are
positive and started item lists are non-empty. -/
def GoodOp : RenderOp → Prop
  | RenderOp.setHeight h => 1 ≤ h
  | RenderOp.start items => items ≠ []
  | _ => True

/-- The cursor/offset invariant of the amended claim. -/
def RenderInv (s : RenderState) : Prop :=
  1 ≤ s.itemCount ∧ 0 ≤ s.cursor ∧ s.cursor < s.itemCount ∧
    s.offset ≤ s.cursor ∧ s.cursor < s.offset + s.height ∧ 1 ≤ s.height

theorem clampCursor_bounds (c count : Int) (h : 1 ≤ count) :
    0 ≤ clampCursor c count ∧ clampCursor c count < count := by
  unfold clampCursor
  split_ifs <;> omega

theorem adjustOffset_window (offset cursor count height scrollOffset : Int)
    (hc0 : 0 ≤ cursor) (hcn : cursor < count) (hh : 1 ≤ height) :
    adjustOffset offset cursor count height scrollOffset ≤ cursor ∧
      cursor < adjustOffset offset cursor count height scrollOffset + height := by
  unfold adjustOffset maxOffset clampWindow scrollMargin
  split_ifs <;> omega

/-- `start` with a non-empty list establishes the invariant from any state
with a positive window height. -/
theorem renderStep_start_inv (s : RenderState) (its : List IdItem)
    (hh : 1 ≤ s.height) (h0 : its ≠ []) :
    RenderInv (renderStep s (RenderOp.start its)) := by
  have hlen : 1 ≤ (its.length : Int) := by
    have := List.length_pos.2 h0
    omega
  have hb := clampCursor_bounds s.cursor (its.length : Int) hlen
  have hw := adjustOffset_window s.offset (clampCursor s.cursor (its.length : Int))
    (its.length : Int) s.height s.scrollOffset hb.1 hb.2 hh
  exact ⟨hlen, hb.1, hb.2, hw.1, hw.2, hh⟩

theorem renderStep_inv (s : RenderState) (op : RenderOp) (hs : RenderInv s)
    (hop : GoodOp op) : RenderInv (renderStep s op) := by
  obtain ⟨hic, hc0, hcn, ho1, ho2, hh⟩ := hs
  cases op with
  | setCursor c =>
      have hb := clampCursor_bounds c s.itemCount hic
      have hw := adjustOffset_window s.offset (clampCursor c s.itemCount)
        s.itemCount s.height s.scrollOffset hb.1 hb.2 hh
      exact ⟨hic, hb.1, hb.2, hw.1, hw.2, hh⟩
  | setCursorLast =>
      have hb := clampCursor_bounds (s.itemCount - 1) s.itemCount hic
      have hw := adjustOffset_window s.offset (clampCursor (s.itemCount - 1) s.itemCount)
        s.itemCount s.height s.scrollOffset hb.1 hb.2 hh
      exact ⟨hic, hb.1, hb.2, hw.1, hw.2, hh⟩
  | moveCursor a =>
      have hb := clampCursor_bounds (s.cursor + a) s.itemCount hic
      have hw := adjustOffset_window s.offset (clampCursor (s.cursor + a) s.itemCount)
        s.itemCount s.height s.scrollOffset hb.1 hb.2 hh
      exact ⟨hic, hb.1, hb.2, hw.1, hw.2, hh⟩
  | setHeight h =>
      have hh' : 1 ≤ h := hop
      have hw := adjustOffset_window s.offset s.cursor s.itemCount h
        s.scrollOffset hc0 hcn hh'
      exact ⟨hic, hc0, hcn, hw.1, hw.2, hh'⟩
  | start items =>
      exact renderStep_start_inv s items hh hop

theorem renderFold_inv (ops : List RenderOp) :
    ∀ s, RenderInv s → (∀ op ∈ ops, GoodOp op) →
      RenderInv (ops.foldl renderStep s) := by
  induction ops with
  | nil => intro s hs _; exact hs
  | cons op rest ih =>
      intro s hs hops
      exact ih (renderStep s op)
        (renderStep_inv s op hs (hops op (List.mem_cons_self op rest)))
        (fun o ho => hops o (List.mem_cons_of_mem op ho))

/-- C4 (counterexample).  From the initial state, `start({items: []})` sets
the cursor to `itemCount - 1 = -1` (`#adjustCursor` clamps a non-negative
cursor to `itemCount - 1` even when `itemCount = 0`), violating
`0 ≤ cursor < max(1, itemCount)` and `offset ≤ cursor`. -/
theorem render_c4_counterexample :
    (renderRun [RenderOp.start []]).cursor = -1 ∧
      ¬(0 ≤ (renderRun [RenderOp.start []]).cursor) ∧
      ¬((renderRun [RenderOp.start []]).offset ≤ (renderRun [RenderOp.start []]).cursor) := by
  refine ⟨by decide, by decide, by decide⟩

/-- C4 (amended).  For every sequence of render-processor operations that
begins with a `start` of a non-empty item list and in which every further
`start` has a non-empty list and every height assignment is positive, the
resulting state satisfies `0 ≤ cursor < max 1 itemCount` (indeed
`cursor < itemCount`) and `offset ≤ cursor < offset + height`.  With an empty
item list `start` (or a non-negative cursor assignment) instead drives the
cursor to `itemCount - 1 = -1`. -/
theorem render_c4_cursor_clamp (its : List IdItem) (rest : List RenderOp)
    (h0 : its ≠ []) (hgood : ∀ op ∈ rest, GoodOp op) :
    0 ≤ (renderRun (RenderOp.start its :: rest)).cursor ∧
      (renderRun (RenderOp.start its :: rest)).cursor
        < max 1 (renderRun (RenderOp.start its :: rest)).itemCount ∧
      (renderRun (RenderOp.start its :: rest)).offset
        ≤ (renderRun (RenderOp.start its :: rest)).cursor ∧
      (renderRun (RenderOp.start its :: rest)).cursor
        < (renderRun (RenderOp.start its :: rest)).offset
          + (renderRun (RenderOp.start its :: rest)).height := by
  have hinv : RenderInv (renderRun (RenderOp.start its :: rest)) := by
    unfold renderRun
    rw [List.foldl_cons]
    exact renderFold_inv rest (renderStep RenderState.initial (RenderOp.start its))
      (renderStep_start_inv RenderState.initial its (by decide) h0) hgood
  obtain ⟨hic, hc0, hcn, ho1, ho2, _⟩ := hinv
  refine ⟨hc0, ?_, ho1, ho2⟩
  rw [max_eq_right hic]
  exact hcn

/-- C4 (witness): the amended theorem on a concrete run — start with three
items, jump to `"$"`, move by 5, shrink the window to 2, move back by 7. -/
theorem render_c4_cursor_clamp_witness :
    0 ≤ (renderRun (RenderOp.start [⟨0, "a"⟩, ⟨1, "b"⟩, ⟨2, "c"⟩] ::
        [RenderOp.setCursorLast, RenderOp.moveCursor 5, RenderOp.setHeight 2,
          RenderOp.moveCursor (-7)])).cursor ∧
      (renderRun (RenderOp.start [⟨0, "a"⟩, ⟨1, "b"⟩, ⟨2, "c"⟩] ::
        [RenderOp.setCursorLast, RenderOp.moveCursor 5, RenderOp.setHeight 2,
          RenderOp.moveCursor (-7)])).cursor
        < max 1 (renderRun (RenderOp.start [⟨0, "a"⟩, ⟨1, "b"⟩, ⟨2, "c"⟩] ::
          [RenderOp.setCursorLast, RenderOp.moveCursor 5, RenderOp.setHeight 2,
            RenderOp.moveCursor (-7)])).itemCount ∧
      (renderRun (RenderOp.start [⟨0, "a"⟩, ⟨1, "b"⟩, ⟨2, "c"⟩] ::
        [RenderOp.setCursorLast, RenderOp.moveCursor 5, RenderOp.setHeight 2,
          RenderOp.moveCursor (-7)])).offset
        ≤ (renderRun (RenderOp.start [⟨0, "a"⟩, ⟨1, "b"⟩, ⟨2, "c"⟩] ::
          [RenderOp.setCursorLast, RenderOp.moveCursor 5, RenderOp.setHeight 2,
            RenderOp.moveCursor (-7)])).cursor ∧
      (renderRun (RenderOp.start [⟨0, "a"⟩, ⟨1, "b"⟩, ⟨2, "c"⟩] ::
        [RenderOp.setCursorLast, RenderOp.moveCursor 5, RenderOp.setHeight 2,
          RenderOp.moveCursor (-7)])).cursor
        < (renderRun (RenderOp.start [⟨0, "a"⟩, ⟨1, "b"⟩, ⟨2, "c"⟩] ::
          [RenderOp.setCursorLast, RenderOp.moveCursor 5, RenderOp.setHeight 2,
            RenderOp.moveCursor (-7)])).offset
          + (renderRun (RenderOp.start [⟨0, "a"⟩, ⟨1, "b"⟩, ⟨2, "c"⟩] ::
            [RenderOp.setCursorLast, RenderOp.moveCursor 5, RenderOp.setHeight 2,
              RenderOp.moveCursor (-7)])).height :=
  render_c4_cursor_clamp [⟨0, "a"⟩, ⟨1, "b"⟩, ⟨2, "c"⟩]
    [RenderOp.setCursorLast, RenderOp.moveCursor 5, RenderOp.setHeight 2,
      RenderOp.moveCursor (-7)]
    (by decide)
    (by
      intro op hop
      simp only [List.mem_cons, List.not_mem_nil, or_false] at hop
      rcases hop with rfl | rfl | rfl | rfl <;> simp [GoodOp])

/-! ### `lib/item_belt.ts` and `processor/sort.ts` -/

/-- Modelled from the spec (§4.4): the implementation of `lib/item_belt.ts`
is used by the match/sort/preview processors but is not among the sources.  A
belt holds an ordered slice of strategies with a current index; on set,
values `≥ count` snap to `count - 1` and values `< 0` snap to `0` (indices
are natural numbers here, so only the upper clamp applies); `current` returns
the strategy at the index, which for an empty slice is undefined. -/
structure ItemBelt (α : Type) where
  items : List α
  index : Nat

/-- Belt construction with an optional initial index (`{index:
options.initialIndex}`); an absent index defaults to `0`. -/
def ItemBelt.mkBelt {α : Type} (items : List α) (index : Option Nat) : ItemBelt α :=
  ⟨items, if items.length ≤ index.getD 0 then items.length - 1 else index.getD 0⟩

def ItemBelt.current {α : Type} (b : ItemBelt α) : Option α :=
  b.items.get? b.index

/-- The observable outcome of one `SortProcessor.start` execution.  In-place
mutation by a sorter is shallow-embedded as a function from the array handed
to it to its final contents; the processor hands the sorter the shallow copy
`items.slice()`, never the caller's array. -/
structure SortStartResult where
  /-- `#items` after success: the sorted copy -/
  published : List IdItem
  /-- the caller's array after the call: it was never handed to a sorter -/
  callerItems : List IdItem
deriving DecidableEq, Repr

/-- `SortProcessor.start` (processor/sort.ts 144-179): clone `items`, hand
the clone to `sorters.current?.sort` (absent sorter: no call), publish the
clone. -/
def SortProcessor.startRun (items : List IdItem)
    (sorters : ItemBelt (List IdItem → List IdItem)) : SortStartResult :=
  { published :=
      match sorters.current with
      | some f => f items
      | none => items,
    callerItems := items }

/-- C8.  `SortProcessor.start` never mutates the caller's items array (the
sorter only ever receives the `slice()` copy), and with no sorter configured
the published list is the input, element for element, in the same order. -/
theorem sort_c8_frame (items : List IdItem)
    (sorters : ItemBelt (List IdItem → List IdItem)) (index : Option Nat) :
    (SortProcessor.startRun items sorters).callerItems = items ∧
      (SortProcessor.startRun items (ItemBelt.mkBelt [] index)).published = items ∧
      ∀ i : Nat, (SortProcessor.startRun items
        (ItemBelt.mkBelt [] index)).published.get? i = items.get? i := by
  refine ⟨rfl, ?_, ?_⟩
  · show (match (ItemBelt.mkBelt ([] : List (List IdItem → List IdItem)) index).current with
      | some f => f items
      | none => items) = items
    have : (ItemBelt.mkBelt ([] : List (List IdItem → List IdItem)) index).current
        = none := by
      unfold ItemBelt.mkBelt ItemBelt.current
      simp
    rw [this]
  · intro i
    show (match (ItemBelt.mkBelt ([] : List (List IdItem → List IdItem)) index).current with
      | some f => f items
      | none => items).get? i = items.get? i
    have : (ItemBelt.mkBelt ([] : List (List IdItem → List IdItem)) index).current
        = none := by
      unfold ItemBelt.mkBelt ItemBelt.current
      simp
    rw [this]

/-! ### The picker orchestrator (`Picker`, src/unnamed/part_010) -/

/-- The `PickerContext` type (part_010 lines 153-183).  The `previewerIndex`
field is declared optional, hence `Option Nat`. -/
structure PickerContext where
  query : String
  selection : List Nat
  collectedItems : List IdItem
  filteredItems : List IdItem
  cursor : Int
  offset : Int
  matcherIndex : Nat
  sorterIndex : Nat
  rendererIndex : Nat
  previewerIndex : Option Nat
deriving DecidableEq, Repr

/-- The snapshot-relevant live state of a `Picker`: the input component's
cmdline, the selection, the two item lists and the current strategy indices
of the four processors. -/
structure PickerState where
  query : String
  selection : List Nat
  collectedItems : List IdItem
  filteredItems : List IdItem
  cursor : Int
  offset : Int
  matcherIndex : Nat
  sorterIndex : Nat
  rendererIndex : Nat
  previewerIndex : Nat
deriving DecidableEq, Repr

/-- The `context` getter (part_010 lines 345-357): the returned object
literal has no `previewerIndex` property, although the type declares it. -/
def Picker.contextOf (p : PickerState) : PickerContext :=
  { query := p.query
    selection := p.selection
    collectedItems := p.collectedItems
    filteredItems := p.filteredItems
    cursor := p.cursor
    offset := p.offset
    matcherIndex := p.matcherIndex
    sorterIndex := p.sorterIndex
    rendererIndex := p.rendererIndex
    previewerIndex := none }

/-- Resuming: the `Picker` constructor (part_010 lines 251-335) fed with a
saved context.  The matcher/sorter/previewer belts receive
`context.{matcher,sorter,previewer}Index` as `initialIndex`
(spec-modelled `ItemBelt` clamping; an absent index defaults to 0); the
`RenderProcessor` (part_006) accepts no `initialIndex`/`initialCursor`/
`initialOffset` options, so the values passed for them are ignored and the
renderer index, cursor and offset start at 0.  The collect processor re-seeds
its unique ordered buffer from `context.collectedItems`. -/
def Picker.resume (ctx : PickerContext)
    (matcherCount sorterCount _rendererCount previewerCount : Nat) : PickerState :=
  { query := ctx.query
    selection := ctx.selection
    collectedItems :=
      (UniqueOrderedList.empty.push ctx.collectedItems).items
    filteredItems := ctx.filteredItems
    cursor := 0
    offset := 0
    matcherIndex := (ItemBelt.mkBelt (List.range matcherCount)
      (some ctx.matcherIndex)).index
    sorterIndex := (ItemBelt.mkBelt (List.range sorterCount)
      (some ctx.sorterIndex)).index
    rendererIndex := 0
    previewerIndex := (ItemBelt.mkBelt (List.range previewerCount)
      ctx.previewerIndex).index }

/-- C9 (counterexample).  For a concrete picker whose renderer index is 3 and
previewer index is 2, the saved context indeed has no `previewerIndex`; but a
save-then-resume round trip (5 renderers, 5 previewers available) yields
renderer index 0 — the renderer index is NOT restored either, because the
render processor's options accept no `initialIndex`. -/
theorem picker_c9_counterexample :
    (Picker.contextOf ⟨"q", [1], [⟨0, "a"⟩], [⟨0, "a"⟩], 1, 0, 1, 1, 3, 2⟩).previewerIndex
        = none ∧
      (Picker.resume (Picker.contextOf ⟨"q", [1], [⟨0, "a"⟩], [⟨0, "a"⟩], 1, 0, 1, 1, 3, 2⟩)
          5 5 5 5).rendererIndex = 0 ∧
      (PickerState.mk "q" [1] [⟨0, "a"⟩] [⟨0, "a"⟩] 1 0 1 1 3 2).rendererIndex = 3 ∧
      (Picker.resume (Picker.contextOf ⟨"q", [1], [⟨0, "a"⟩], [⟨0, "a"⟩], 1, 0, 1, 1, 3, 2⟩)
          5 5 5 5).previewerIndex = 0 := by
  refine ⟨rfl, by decide, rfl, by decide⟩

/-- C9 (amended).  The context snapshot never carries `previewerIndex`
(although `PickerContext` declares the field), so a save-then-resume round
trip restores the matcher and sorter indices (when they are in range of the
configured strategy lists) but resets the previewer index to 0 — and it also
resets the renderer index to 0, since the render processor's options accept
no `initialIndex` and ignore the value the constructor passes. -/
theorem picker_c9_context (p : PickerState) (m s r pv : Nat)
    (hm : p.matcherIndex < m) (hs : p.sorterIndex < s) :
    (Picker.contextOf p).previewerIndex = none ∧
      (Picker.resume (Picker.contextOf p) m s r pv).matcherIndex = p.matcherIndex ∧
      (Picker.resume (Picker.contextOf p) m s r pv).sorterIndex = p.sorterIndex ∧
      (Picker.resume (Picker.contextOf p) m s r pv).rendererIndex = 0 ∧
      (Picker.resume (Picker.contextOf p) m s r pv).previewerIndex = 0 := by
  refine ⟨rfl, ?_, ?_, rfl, ?_⟩
  · show (ItemBelt.mkBelt (List.range m) (some p.matcherIndex)).index = p.matcherIndex
    unfold ItemBelt.mkBelt
    simp only [Option.getD_some, List.length_range]
    rw [if_neg (by omega)]
  · show (ItemBelt.mkBelt (List.range s) (some p.sorterIndex)).index = p.sorterIndex
    unfold ItemBelt.mkBelt
    simp only [Option.getD_some, List.length_range]
    rw [if_neg (by omega)]
  · show (ItemBelt.mkBelt (List.range pv) (none : Option Nat)).index = 0
    unfold ItemBelt.mkBelt
    simp only [Option.getD_none, List.length_range]
    split <;> omega

/-- C9 (witness): the amended theorem at the concrete picker above. -/
theorem picker_c9_context_witness :
    (Picker.contextOf ⟨"q", [1], [⟨0, "a"⟩], [⟨0, "a"⟩], 1, 0, 1, 1, 3, 2⟩).previewerIndex
        = none ∧
      (Picker.resume (Picker.contextOf ⟨"q", [1], [⟨0, "a"⟩], [⟨0, "a"⟩], 1, 0, 1, 1, 3, 2⟩)
          5 5 5 5).matcherIndex
        = (PickerState.mk "q" [1] [⟨0, "a"⟩] [⟨0, "a"⟩] 1 0 1 1 3 2).matcherIndex ∧
      (Picker.resume (Picker.contextOf ⟨"q", [1], [⟨0, "a"⟩], [⟨0, "a"⟩], 1, 0, 1, 1, 3, 2⟩)
          5 5 5 5).sorterIndex
        = (PickerState.mk "q" [1] [⟨0, "a"⟩] [⟨0, "a"⟩] 1 0 1 1 3 2).sorterIndex ∧
      (Picker.resume (Picker.contextOf ⟨"q", [1], [⟨0, "a"⟩], [⟨0, "a"⟩], 1, 0, 1, 1, 3, 2⟩)
          5 5 5 5).rendererIndex = 0 ∧
      (Picker.resume (Picker.contextOf ⟨"q", [1], [⟨0, "a"⟩], [⟨0, "a"⟩], 1, 0, 1, 1, 3, 2⟩)
          5 5 5 5).previewerIndex = 0 :=
  picker_c9_context ⟨"q", [1], [⟨0, "a"⟩], [⟨0, "a"⟩], 1, 0, 1, 1, 3, 2⟩ 5 5 5 5
    (by decide) (by decide)

/-- The result assembled at the end of `Picker.start` (part_010 604-614). -/
structure PickerResult where
  action : Option String
  query : String
  item : Option IdItem
  selectedItems : Option (List IdItem)
  filteredItems : List IdItem
deriving DecidableEq, Repr

/-- `Picker.start` on acceptance: `item = matched[cursor]`,
`selectedItems = selection.size > 0 ? matched.filter((v) =>
selection.has(v.id)) : undefined`, `filteredItems = matched`.  The JS `Set`
`#selection` is modelled by its list of elements. -/
def Picker.startResult (matched : List IdItem) (cursor : Int) (selection : List Nat)
    (query : String) (action : Option String) : PickerResult :=
  { action := action
    query := query
    item := if 0 ≤ cursor then matched.get? cursor.toNat else none
    selectedItems :=
      if selection.length > 0 then
        some (matched.filter (fun v => v.id ∈ selection))
      else none
    filteredItems := matched }

/-- C10.  On acceptance `selectedItems` is undefined exactly when the
selection set is empty; otherwise it is the sub-list of the currently matched
items whose ids are selected, in matched order (a sublist of the matched
list), and every selected id that no longer passes the filter is dropped:
every element of the result has a selected id, and every matched item with a
selected id appears. -/
theorem picker_c10_selected (matched : List IdItem) (cursor : Int)
    (selection : List Nat) (query : String) (action : Option String) :
    ((Picker.startResult matched cursor selection query action).selectedItems = none ↔
        selection = []) ∧
      (Picker.startResult matched cursor selection query action).filteredItems
        = matched ∧
      (∀ l, (Picker.startResult matched cursor selection query action).selectedItems
            = some l →
        l.Sublist matched ∧ (∀ x ∈ l, x.id ∈ selection) ∧
          (∀ x ∈ matched, x.id ∈ selection → x ∈ l)) := by
  refine ⟨?_, rfl, ?_⟩
  · show (if selection.length > 0 then
        some (matched.filter (fun v => v.id ∈ selection))
      else none) = none ↔ selection = []
    split
    · next h =>
        simp only [reduceCtorEq, false_iff]
        intro hsel
        rw [hsel] at h
        simp at h
    · next h =>
        simp only [true_iff]
        cases selection with
        | nil => rfl
        | cons a as => simp at h
  · intro l hl
    simp only [Picker.startResult] at hl
    have hsel : l = matched.filter (fun v => v.id ∈ selection) := by
      by_cases h : selection.length > 0
      · rw [if_pos h] at hl
        exact (Option.some_injective _ hl).symm
      · rw [if_neg h] at hl
        exact absurd hl (by simp)
    rw [hsel]
    refine ⟨List.filter_sublist matched, ?_, ?_⟩
    · intro x hx
      have := List.of_mem_filter hx
      simpa using this
    · intro x hx hid
      exact List.mem_filter.2 ⟨hx, by simpa using hid⟩

/-- C10 (witness): the theorem at a matched list of three items with
selection `{2, 5}` — id 5 no longer passes the filter and is dropped; the
result is `[⟨2,"c"⟩]`. -/
theorem picker_c10_selected_witness :
    (([⟨2, "c"⟩] : List IdItem).Sublist [⟨0, "a"⟩, ⟨1, "b"⟩, ⟨2, "c"⟩] ∧
        (∀ x ∈ ([⟨2, "c"⟩] : List IdItem), x.id ∈ [2, 5]) ∧
        (∀ x ∈ ([⟨0, "a"⟩, ⟨1, "b"⟩, ⟨2, "c"⟩] : List IdItem),
          x.id ∈ [2, 5] → x ∈ ([⟨2, "c"⟩] : List IdItem))) ∧
      ¬((Picker.startResult [⟨0, "a"⟩, ⟨1, "b"⟩, ⟨2, "c"⟩] 0 [2, 5] "" none).selectedItems
        = none) :=
  ⟨(picker_c10_selected [⟨0, "a"⟩, ⟨1, "b"⟩, ⟨2, "c"⟩] 0 [2, 5] "" none).2.2
      [⟨2, "c"⟩] (by decide),
    by
      have h := (picker_c10_selected [⟨0, "a"⟩, ⟨1, "b"⟩, ⟨2, "c"⟩] 0 [2, 5] "" none).1
      intro hc
      exact absurd (h.1 hc) (by decide)⟩

end Fall
